import Mathlib

/-!
Verification development for the GIS map application
(`src/utils/wfsParser.ts`, `src/hooks/useWfsLayer.ts`, `src/components/Map.tsx`,
`src/services/ZWSService.ts`).

The TypeScript sources are shallowly embedded: browser/JS primitives that the
code relies on (string trimming/splitting, `Number(...)` coercion, the DOM tree
produced by `DOMParser`) are modelled explicitly, and each TypeScript function
is translated into a total executable Lean function over those models.
JS `number` values are modelled as exact rationals extended with NaN and ±Infinity;
none of the verified properties depends on float64 rounding.
-/

/-! ## JS number values -/

/-- A JS `number` as produced by `Number(token)` on the strings this code
handles: NaN, ±Infinity, or a finite value (modelled exactly as a rational). -/
inductive JsNum where
  | nan
  | inf
  | neginf
  | val (q : ℚ)
deriving DecidableEq

/-- JS `isNaN(n)` for an already-converted number. -/
def JsNum.isNaN : JsNum → Bool
  | .nan => true
  | _ => false

/-- ASCII whitespace recognized by JS `trim()` and `/\s+/` (the subset that can
occur in the XML text content this code processes). -/
def isJsWs (c : Char) : Bool :=
  c = ' ' ∨ c = '\t' ∨ c = '\n' ∨ c = '\r'

/-- JS `String.prototype.trim()`. -/
def jsTrim (s : String) : String :=
  String.mk (((s.data.dropWhile isJsWs).reverse.dropWhile isJsWs).reverse)

def splitWsAux : List Char → List Char → List String → List String
  | [], cur, acc =>
      if cur.isEmpty then acc.reverse else (String.mk cur.reverse :: acc).reverse
  | c :: rest, cur, acc =>
      if isJsWs c then
        if cur.isEmpty then splitWsAux rest [] acc
        else splitWsAux rest [] (String.mk cur.reverse :: acc)
      else splitWsAux rest (c :: cur) acc

/-- JS `text.trim().split(/\s+/)`: after trimming, a nonempty string splits into
its whitespace-separated tokens, and the empty string yields `[""]` (JS `split`
on an empty string returns a singleton containing the empty string). -/
def jsTrimSplitWs (s : String) : List String :=
  let t := jsTrim s
  if t = "" then [""] else splitWsAux t.data [] []

def splitCommaAux : List Char → List Char → List (List Char)
  | [], cur => [cur.reverse]
  | c :: rest, cur =>
      if c = ',' then cur.reverse :: splitCommaAux rest []
      else splitCommaAux rest (c :: cur)

/-- JS `s.split(',')`. -/
def jsSplitComma (s : String) : List String :=
  (splitCommaAux s.data []).map String.mk

def digitsToNat (ds : List Char) : ℕ :=
  ds.foldl (fun n c => 10 * n + (c.toNat - 48)) 0

def spanDigits (cs : List Char) : List Char × List Char :=
  (cs.takeWhile Char.isDigit, cs.dropWhile Char.isDigit)

/-- Exponent part of a JS numeric literal (the characters after `e`/`E`):
an optional sign followed by at least one digit, consuming the whole rest. -/
def expValOf (cs : List Char) : Option ℤ :=
  let signAndRest : ℤ × List Char :=
    match cs with
    | '+' :: r => (1, r)
    | '-' :: r => (-1, r)
    | r => (1, r)
  let ds := spanDigits signAndRest.2
  if ds.1.isEmpty ∨ ¬ ds.2.isEmpty then none
  else some (signAndRest.1 * (digitsToNat ds.1 : ℤ))

/-- Value of an unsigned JS decimal numeral `digits [. digits] [(e|E)[sign]digits]`
(consuming the whole character list), or `none` when the list is not of that
shape. Returns the exact rational value. -/
def decimalValue (cs : List Char) : Option ℚ :=
  let ip := spanDigits cs
  let fp : List Char × List Char :=
    match ip.2 with
    | '.' :: r => spanDigits r
    | _ => ([], ip.2)
  let consumedDot : Bool := match ip.2 with | '.' :: _ => true | _ => false
  let rest := if consumedDot then fp.2 else ip.2
  if ip.1.isEmpty ∧ (¬ consumedDot ∨ fp.1.isEmpty) then none
  else
    let fds := if consumedDot then fp.1 else []
    let mant : ℕ := digitsToNat (ip.1 ++ fds)
    let eopt : Option ℤ :=
      match rest with
      | [] => some 0
      | 'e' :: r => expValOf r
      | 'E' :: r => expValOf r
      | _ => none
    match eopt with
    | none => none
    | some e =>
      let p : ℤ := e - (fds.length : ℤ)
      if p = 0 then some (mant : ℚ)
      else if 0 < p then some ((mant : ℚ) * (10 : ℚ) ^ p.toNat)
      else some ((mant : ℚ) / (10 : ℚ) ^ (-p).toNat)

/-- JS `Number(s)` string-to-number coercion on the token shapes occurring in
GML coordinate text: whitespace is trimmed; the empty string converts to `0`;
an optional sign precedes either `Infinity` or a decimal numeral; anything else
is NaN. (Hex/octal/binary literal forms never occur in coordinate lists and
convert to NaN in this model.) -/
def jsNumber (s : String) : JsNum :=
  let t := (jsTrim s).data
  match t with
  | [] => .val 0
  | _ =>
    let signAndBody : Bool × List Char :=
      match t with
      | '-' :: r => (true, r)
      | '+' :: r => (false, r)
      | r => (false, r)
    let neg := signAndBody.1
    let body := signAndBody.2
    if body = "Infinity".data then (if neg then .neginf else .inf)
    else
      match decimalValue body with
      | some q => .val (if neg then -q else q)
      | none => .nan

/-- ASCII lowercasing of one character, as JS `toLowerCase()` acts on the ASCII
tag names this code compares. -/
def lowerChar (c : Char) : Char :=
  if 'A' ≤ c ∧ c ≤ 'Z' then Char.ofNat (c.toNat + 32) else c

/-- JS `s.toLowerCase()` restricted to ASCII. -/
def lowerStr (s : String) : String :=
  String.mk (s.data.map lowerChar)

/-! ## DOM model

`DOMParser.parseFromString(xmlText, 'application/xml')` yields a tree of
elements and text nodes. Only the DOM accessors the source uses are modelled:
`children` / `firstElementChild` (element children), `textContent`,
`getElementsByTagName` (qualified-name match on descendants, `*` wildcard),
`localName` (the tag name after the namespace-prefix colon). -/

inductive XmlNode where
  | elem (tag : String) (children : List XmlNode)
  | text (s : String)

def XmlNode.tagOf : XmlNode → String
  | .elem t _ => t
  | .text _ => ""

def XmlNode.childNodes : XmlNode → List XmlNode
  | .elem _ cs => cs
  | .text _ => []

def XmlNode.isElem : XmlNode → Bool
  | .elem _ _ => true
  | .text _ => false

/-- DOM `.children`: element children only (text nodes skipped). -/
def XmlNode.elemChildren (n : XmlNode) : List XmlNode :=
  n.childNodes.filter XmlNode.isElem

mutual
def XmlNode.textContent : XmlNode → String
  | .text s => s
  | .elem _ cs => textContentList cs

def textContentList : List XmlNode → String
  | [] => ""
  | c :: rest => c.textContent ++ textContentList rest
end

mutual
/-- All element descendants of a node in document (pre)order, the node itself
excluded — the search space of DOM `element.getElementsByTagName`. -/
def XmlNode.descElems : XmlNode → List XmlNode
  | .text _ => []
  | .elem _ cs => descElemsList cs

def descElemsList : List XmlNode → List XmlNode
  | [] => []
  | c :: rest =>
      (match c with
       | .elem t cs => XmlNode.elem t cs :: (XmlNode.elem t cs).descElems
       | .text _ => []) ++ descElemsList rest
end

/-- DOM `element.getElementsByTagName(name)`: descendant elements whose
qualified tag name equals `name` exactly (XML documents are case-sensitive);
`"*"` matches every descendant element. -/
def XmlNode.getByTag (n : XmlNode) (name : String) : List XmlNode :=
  if name = "*" then n.descElems
  else n.descElems.filter (fun c => c.tagOf == name)

/-- `element.getElementsByTagName(name)[0]` — `none` models JS `undefined`. -/
def firstByTag (el : XmlNode) (name : String) : Option XmlNode :=
  (el.getByTag name).head?

/-- DOM `localName`: the part of the qualified tag name after the
namespace-prefix colon (the whole name when there is no colon). -/
def afterColon : List Char → Option (List Char)
  | [] => none
  | ':' :: r => some r
  | _ :: r => afterColon r

def localNameOf (tag : String) : String :=
  match afterColon tag.data with
  | some r => String.mk r
  | none => tag

/-- A parsed XML document; `root` is `documentElement`. -/
structure XmlDoc where
  root : XmlNode

/-- DOM `document.getElementsByTagName(name)`: like the element version but the
document element itself is included in the search space. -/
def XmlDoc.getByTag (d : XmlDoc) (name : String) : List XmlNode :=
  let all := (if d.root.isElem then [d.root] else []) ++ d.root.descElems
  if name = "*" then all else all.filter (fun c => c.tagOf == name)

/-- Result of `new DOMParser().parseFromString(xmlText, 'application/xml')`.
`parseFromString` never throws: on non-well-formed input it returns an error
document whose tree contains a `parsererror` element (`malformed errorDoc`),
on well-formed input it returns the document tree. The repository code never
distinguishes the two cases (it never checks for `parsererror`), so both
constructors carry a plain document tree. -/
inductive DomParseResult where
  | wellFormed (doc : XmlDoc)
  | malformed (errorDoc : XmlDoc)

def DomParseResult.doc : DomParseResult → XmlDoc
  | .wellFormed d => d
  | .malformed d => d

/-- JS `x || y` for string-or-undefined values: the empty string is falsy. -/
def jsOrStr (a b : Option String) : Option String :=
  match a with
  | some s => if s = "" then b else some s
  | none => b

/-- JS truthiness of a string-or-undefined value. -/
def jsTruthy : Option String → Bool
  | some s => !(s = "")
  | none => false

/-- JS `x || y` for element-or-undefined values (elements are always truthy). -/
def jsOrNode (a b : Option XmlNode) : Option XmlNode :=
  match a with
  | some x => some x
  | none => b

/-! ## GeoJSON geometry model (`src/utils/wfsParser.ts`) -/

/-- GeoJSON geometry as constructed by `parseWfsXmlToGeoJson`: coordinate
"points" are the number lists the parser actually builds (the source performs
no arity checking beyond what is embedded below). -/
inductive Geometry where
  | point (coordinates : List JsNum)
  | lineString (coordinates : List (List JsNum))
  | polygon (coordinates : List (List (List JsNum)))
deriving DecidableEq

/-- One GeoJSON feature: an attribute record (JS object; insertion order, last
write wins on duplicate keys) and an optional geometry (`none` = GeoJSON
`geometry: null`). -/
structure Feature where
  properties : List (String × String)
  geometry : Option Geometry
deriving DecidableEq

instance : Inhabited Feature := ⟨⟨[], none⟩⟩

structure FeatureCollection where
  features : List Feature
deriving DecidableEq

/-- JS object property write `props[key] = v`: updates an existing key in place
(keeping its position), otherwise appends. -/
def recordSet (r : List (String × String)) (k v : String) : List (String × String) :=
  if r.any (fun p => p.1 == k) then r.map (fun p => if p.1 == k then (k, v) else p)
  else r ++ [(k, v)]

/-! ## `parseWfsXmlToGeoJson` (src/utils/wfsParser.ts lines 1-230) -/

/-- `findAll` (lines 8-18): first tag name from `names` that matches at least
one element of the document wins. -/
def findAll (names : List String) (d : XmlDoc) : List XmlNode :=
  match names with
  | [] => []
  | n :: rest =>
      let els := d.getByTag n
      if els.isEmpty then findAll rest d else els

/-- Member location (lines 20-42): the four wrapper conventions, then a
`featureMembers` wrapper's element children, then the document element's
children minus the envelope/collection tags. -/
def wfsMembers (d : XmlDoc) : List XmlNode :=
  let m1 := findAll ["featureMember", "gml:featureMember", "member", "gml:member"] d
  let m2 :=
    if m1.isEmpty then
      match (d.getByTag "featureMembers").head? with
      | some fm => if fm.elemChildren.isEmpty then [] else fm.elemChildren
      | none => []
    else m1
  if m2.isEmpty then
    d.root.elemChildren.filter (fun el =>
      !(["boundedby", "featurecollection", "wfs:featurecollection",
         "gml:featurecollection"].contains (lowerStr (localNameOf el.tagOf))))
  else m2

/-- `parsePosList` (lines 44-54): whitespace-split, `Number`-convert, drop NaN,
then the loop `for (i = 0; i < nums.length - 1; i += 2) push [nums[i], nums[i+1]]`,
whose iterations are exactly `j = 0 .. nums.length/2 - 1` with `i = 2*j`. -/
def parsePosList (text : String) : List (List JsNum) :=
  let nums := ((jsTrimSplitWs text).map jsNumber).filter (fun n => !n.isNaN)
  (List.range (nums.length / 2)).map
    (fun j => [nums.getD (2 * j) .nan, nums.getD (2 * j + 1) .nan])

/-- `parsePos` (lines 55-58): no NaN filtering; the first two numbers, or null
when fewer than two tokens. -/
def parsePos (text : String) : Option (List JsNum) :=
  let nums := (jsTrimSplitWs text).map jsNumber
  if nums.length ≥ 2 then some [nums.getD 0 .nan, nums.getD 1 .nan] else none

/-- The comma-separated `coordinates` fallback of the LineString branch
(lines 99-106): `coordsText.trim().split(/\s+/).map(s => s.split(',').map(Number))`. -/
def commaPairs (ct : String) : List (List JsNum) :=
  (jsTrimSplitWs ct).map (fun s => (jsSplitComma s).map jsNumber)

/-- Point branch of `parseGeometryFromElement` (lines 63-78). Returns `none`
both when no `Point`/`gml:Point` descendant exists and when one exists but
yields no coordinates — in the source, control then falls through to the
LineString branch. -/
def pointBranch (el : XmlNode) : Option Geometry :=
  match jsOrNode (firstByTag el "Point") (firstByTag el "gml:Point") with
  | none => none
  | some pointEl =>
    let pos := jsOrNode (firstByTag pointEl "pos") (firstByTag pointEl "gml:pos")
    let coordsText := jsOrStr (pos.map XmlNode.textContent)
        ((firstByTag pointEl "coordinates").map XmlNode.textContent)
    if jsTruthy coordsText then
      match parsePos (coordsText.getD "") with
      | some p => some (.point p)
      | none => none
    else none

/-- LineString branch (lines 80-109). -/
def lineBranch (el : XmlNode) : Option Geometry :=
  match jsOrNode (firstByTag el "LineString") (firstByTag el "gml:LineString") with
  | none => none
  | some lineEl =>
    let posList := jsOrNode (firstByTag lineEl "posList") (firstByTag lineEl "gml:posList")
    let coordsText := jsOrStr (posList.map XmlNode.textContent)
        ((firstByTag lineEl "coordinates").map XmlNode.textContent)
    if jsTruthy coordsText then
      match posList with
      | some pl =>
          if jsTruthy (some pl.textContent) then
            some (.lineString (parsePosList pl.textContent))
          else some (.lineString (commaPairs (coordsText.getD "")))
      | none => some (.lineString (commaPairs (coordsText.getD "")))
    else none

/-- Polygon branch (lines 111-143): only the exterior ring is extracted, and a
Polygon is returned only when `ringCoords` is nonempty. -/
def polyBranch (el : XmlNode) : Option Geometry :=
  match jsOrNode (firstByTag el "Polygon") (firstByTag el "gml:Polygon") with
  | none => none
  | some polyEl =>
    let ringCoords : List (List JsNum) :=
      match jsOrNode (firstByTag polyEl "exterior") (firstByTag polyEl "gml:exterior") with
      | some ext =>
        let linearRing := jsOrNode (firstByTag ext "LinearRing") (firstByTag ext "gml:LinearRing")
        let posList := jsOrNode (linearRing.bind fun lr => firstByTag lr "posList")
            (linearRing.bind fun lr => firstByTag lr "gml:posList")
        let coordsText := jsOrStr (posList.map XmlNode.textContent)
            ((linearRing.bind fun lr => firstByTag lr "coordinates").map XmlNode.textContent)
        if jsTruthy coordsText then parsePosList (coordsText.getD "") else []
      | none =>
        match jsOrNode (firstByTag polyEl "posList") (firstByTag polyEl "gml:posList") with
        | some pl =>
            if jsTruthy (some pl.textContent) then parsePosList pl.textContent else []
        | none => []
    if ringCoords.isEmpty then none else some (.polygon [ringCoords])

/-- Bare `posList` fallback (lines 145-153): one coordinate pair becomes a
Point, any other number of pairs (including zero) becomes a LineString. -/
def barePosListBranch (el : XmlNode) : Option Geometry :=
  match jsOrNode (firstByTag el "posList") (firstByTag el "gml:posList") with
  | none => none
  | some pl =>
    if jsTruthy (some pl.textContent) then
      let coords := parsePosList pl.textContent
      if coords.length = 1 then some (.point (coords.getD 0 []))
      else some (.lineString coords)
    else none

/-- `parseGeometryFromElement` (lines 60-156): the four blocks in priority
order, each falling through to the next when it does not return. -/
def parseGeometryFromElement : Option XmlNode → Option Geometry
  | none => none
  | some el =>
    match pointBranch el with
    | some g => some g
    | none =>
      match lineBranch el with
      | some g => some g
      | none =>
        match polyBranch el with
        | some g => some g
        | none => barePosListBranch el

/-- Tags skipped during attribute extraction (lines 174-186). -/
def attrSkipTags : List String :=
  ["point", "linestring", "polygon", "pos", "poslist", "the_geom",
   "geometry", "coordinates", "linearring", "boundedby", "envelope"]

/-- `childHasGeom` test (lines 187-192) — note the source checks only the
unprefixed tag names here. -/
def childHasGeom (child : XmlNode) : Bool :=
  !(child.getByTag "posList").isEmpty || !(child.getByTag "pos").isEmpty ||
  !(child.getByTag "Point").isEmpty || !(child.getByTag "LineString").isEmpty ||
  !(child.getByTag "Polygon").isEmpty

/-- Attribute extraction over the feature element's children (lines 171-196). -/
def propsOf (featureEl : XmlNode) : List (String × String) :=
  featureEl.elemChildren.foldl
    (fun props child =>
      let ln := lowerStr (localNameOf child.tagOf)
      if attrSkipTags.contains ln || childHasGeom child then props
      else
        let key := if localNameOf child.tagOf = "" then child.tagOf
                   else localNameOf child.tagOf
        recordSet props key (jsTrim child.textContent))
    []

/-- Choice of the "actual feature" element inside a member (lines 161-167):
first child that is not a bounding-box/geometry wrapper, else the first element
child, else the member itself. -/
def actualFeatureElOf (memberEl : XmlNode) : Option XmlNode :=
  jsOrNode
    (memberEl.elemChildren.find? (fun c =>
      !(["boundedby", "the_geom", "geometry", "envelope"].contains
          (lowerStr (localNameOf c.tagOf)))))
    (jsOrNode memberEl.elemChildren.head? (some memberEl))

/-- Tags accepted by the nested-geometry rescue scan (lines 200-219). -/
def geomScanTags : List String :=
  ["point", "linestring", "polygon", "poslist", "pos", "coordinates"]

/-- The rescue scan (lines 199-220): walk all descendants in document order and
take the first matching element whose extraction succeeds. -/
def scanForGeometry : List XmlNode → Option Geometry
  | [] => none
  | c :: rest =>
      if geomScanTags.contains (lowerStr (localNameOf c.tagOf)) then
        match parseGeometryFromElement (some c) with
        | some g => some g
        | none => scanForGeometry rest
      else scanForGeometry rest

/-- Body of the member loop (lines 159-227); returns `none` exactly when the
source executes `continue` (the `if (!actualFeatureEl) continue` guard). -/
def featureOfMember (memberEl : XmlNode) : Option Feature :=
  match actualFeatureElOf memberEl with
  | none => none
  | some featureEl =>
    let props := propsOf featureEl
    let geometry :=
      match parseGeometryFromElement (some featureEl) with
      | some g => some g
      | none => scanForGeometry (featureEl.getByTag "*")
    some { properties := props, geometry := geometry }

def parseDocFeatures (d : XmlDoc) : List Feature :=
  (wfsMembers d).filterMap featureOfMember

/-- `parseWfsXmlToGeoJson` (lines 1-230). The `dom` argument is the (modelled)
result of `new DOMParser().parseFromString(xmlText, 'application/xml')`; the
function returns `null` only for the falsy (empty) input string, and otherwise
always returns a FeatureCollection — the source contains no `throw` and never
inspects the DOM error document. -/
def parseWfsXmlToGeoJson (xmlText : String) (dom : DomParseResult) :
    Option FeatureCollection :=
  if xmlText = "" then none
  else some { features := parseDocFeatures dom.doc }

/-! ## Popup HTML builders -/

/-- Modelled from the spec: `src/utils/escapeHtml` is imported by
`src/components/Map.tsx` but its source file is not among the provided sources.
The spec requires that popups "HTML-escape every field name and value before
display" and that values containing `<`, `>`, `&` render escaped; this is the
standard entity escaping of those three characters. -/
def escapeChar (c : Char) : List Char :=
  if c = '&' then "&amp;".data
  else if c = '<' then "&lt;".data
  else if c = '>' then "&gt;".data
  else [c]

def escapeHtml (s : String) : String :=
  String.mk (s.data.flatMap escapeChar)

/-- JS `Array.prototype.join(sep)`. -/
def joinSep (sep : String) : List String → String
  | [] => ""
  | [x] => x
  | x :: rest => x ++ sep ++ joinSep sep rest

/-- Popup bound to each feature of the hook's WFS layer
(`src/hooks/useWfsLayer.ts` lines 67-74, `onEachFeature`): the field name and
value are interpolated into the HTML template with no escaping. -/
def hookFeaturePopupHtml (props : List (String × String)) : String :=
  "<div>" ++
    joinSep "<br/>" (props.map (fun p => "<strong>" ++ p.1 ++ "</strong>: " ++ p.2)) ++
  "</div>"

/-- The point-query protocol's attribute record (`src/services/ZWSService.ts`
lines 6-9). -/
structure ZWSField where
  userName : String
  value : String
deriving DecidableEq

/-- Click popup from ZWS point-query fields (`src/components/Map.tsx`
lines 164-175): escaped name and value, or the static
"attributes unavailable" text for an empty field list. -/
def clickFieldsPopupHtml (fields : List ZWSField) : String :=
  if fields.length = 0 then "<div><em>Объект найден, но атрибуты недоступны</em></div>"
  else
    "<div>" ++
      joinSep "<br/>" (fields.map (fun f =>
        "<strong>" ++ escapeHtml f.userName ++ ":</strong> " ++ escapeHtml f.value)) ++
    "</div>"

/-- Click-fallback popup from the first WFS feature's attributes
(`src/components/Map.tsx` lines 144-152 and 189-197): escaped. -/
def fallbackPropsPopupHtml (props : List (String × String)) : String :=
  "<div>" ++
    joinSep "<br/>" (props.map (fun p =>
      "<strong>" ++ escapeHtml p.1 ++ ":</strong> " ++ escapeHtml p.2)) ++
  "</div>"

/-- Popup bound to each feature of the Map-owned WFS GeoJSON layer
(`src/components/Map.tsx` lines 284-295, `onEachFeature`): escaped. -/
def mapFeaturePopupHtml (props : List (String × String)) : String :=
  "<div>" ++
    joinSep "<br/>" (props.map (fun p =>
      "<strong>" ++ escapeHtml p.1 ++ ":</strong> " ++ escapeHtml p.2)) ++
  "</div>"

/-! ## Click resolution (`src/components/Map.tsx` `handleMapClick`, lines 112-221) -/

/-- How the awaited `zwsService.selectByXY` call settles. -/
inductive ZwsOutcome where
  | resolvedFields (fields : List ZWSField)  -- resolved with a field list
  | resolvedNull                             -- resolved `null` (no `Element` node)
  | abortError                               -- rejected with an AbortError
  | failure (msg : String)                   -- rejected with another error
deriving DecidableEq

/-- Observable outcome of one `handleMapClick` run: whether the fallback bbox
WFS fetch was issued, the popup bound to the click marker (if any), and the
bare `L.popup()` content (the "not found" / error popups). -/
structure ClickOutcome where
  fallbackIssued : Bool
  markerPopup : Option String
  plainPopup : Option String
deriving DecidableEq

/-- `handleMapClick` (lines 112-221), as a function of how the point query
settles and of what the fallback `loadWfsAtPoint` would deliver
(`loadWfsAtPoint` itself catches fetch errors and returns null, lines 93-109).
The fallback result argument is consulted only on the paths where the source
actually awaits `loadWfsAtPoint`; `fallbackIssued` records whether it does. -/
def handleMapClick (zws : ZwsOutcome) (wfsAtPoint : Option FeatureCollection) :
    ClickOutcome :=
  match zws with
  | .resolvedFields fields =>
      { fallbackIssued := false
        markerPopup := some (clickFieldsPopupHtml fields)
        plainPopup := none }
  | .resolvedNull =>
      match wfsAtPoint with
      | some fc =>
          if fc.features.length > 0 then
            { fallbackIssued := true
              markerPopup := some (fallbackPropsPopupHtml (fc.features.getD 0 default).properties)
              plainPopup := none }
          else
            { fallbackIssued := true, markerPopup := none
              plainPopup := some "<div><em>Объект не найден</em></div>" }
      | none =>
          { fallbackIssued := true, markerPopup := none
            plainPopup := some "<div><em>Объект не найден</em></div>" }
  | .abortError =>
      { fallbackIssued := false, markerPopup := none, plainPopup := none }
  | .failure msg =>
      match wfsAtPoint with
      | some fc =>
          if fc.features.length > 0 then
            { fallbackIssued := true
              markerPopup := some (fallbackPropsPopupHtml (fc.features.getD 0 default).properties)
              plainPopup := none }
          else
            { fallbackIssued := true, markerPopup := none
              plainPopup := some ("<div><strong>Ошибка:</strong> " ++ msg ++ "</div>") }
      | none =>
          { fallbackIssued := true, markerPopup := none
            plainPopup := some ("<div><strong>Ошибка:</strong> " ++ msg ++ "</div>") }

/-! ## The bbox fetch stream (`src/hooks/useWfsLayer.ts`)

`fetchForBbox` (lines 17-60) aborts the previous `AbortController`, installs a
fresh one, and returns the parsed FeatureCollection on success and `null` on
HTTP failure, AbortError rejection, or any other fetch error. Its callers
apply the returned value to the single Leaflet GeoJSON layer:

* `onOverlayAdd` (lines 91-119): replaces the layer data only when the result
  is non-null with at least one feature;
* the debounced `onMoveEnd` body (lines 137-152): replaces the layer data
  whenever the result is non-null (`if (fc) { clearLayers(); addData(fc); }`).

There is no generation counter anywhere in the hook: nothing ties a completed
fetch to "is it still the latest?", so the model below applies every completed
fetch's return value at its call site unconditionally — exactly as the code
does. Abort signalling is recorded (`aborted`), but JS abort is best-effort: a
fetch whose controller was aborted can still settle successfully (for example
when `abort()` lands after `resp.text()` resolved), which the trace represents
by a `finish` event carrying a successful result for an aborted id. -/

inductive CallSite where
  | overlayAdd
  | moveEnd
deriving DecidableEq

/-- How the transport settles one `fetchForBbox` call. -/
inductive FetchEnd where
  | success (fc : Option FeatureCollection) -- `resp.ok`; body parsed
  | httpError                               -- `!resp.ok` → returns null
  | abortError                              -- rejected AbortError → returns null
  | networkError                            -- other rejection → returns null
deriving DecidableEq

/-- The value `fetchForBbox` returns to its caller for each way of settling. -/
def fetchReturn : FetchEnd → Option FeatureCollection
  | .success fc => fc
  | .httpError => none
  | .abortError => none
  | .networkError => none

inductive StreamEv where
  | start (fid : ℕ) (site : CallSite)  -- `fetchForBbox` invoked; fresh controller `fid`
  | finish (fid : ℕ) (res : FetchEnd)  -- the awaited fetch settles; caller resumes
deriving DecidableEq

structure StreamState where
  currentFid : Option ℕ            -- `abortRef.current`
  aborted : List ℕ                 -- controllers on which `.abort()` was called
  sites : List (ℕ × CallSite)      -- which handler awaits which fetch
  displayed : List Feature          -- data in the Leaflet GeoJSON layer
deriving DecidableEq

def initialStream : StreamState :=
  { currentFid := none, aborted := [], sites := [], displayed := [] }

def lookupSite (sites : List (ℕ × CallSite)) (fid : ℕ) : Option CallSite :=
  (sites.find? (fun p => p.1 == fid)).map Prod.snd

/-- What a call site does with the value returned by `fetchForBbox`.
`onOverlayAdd`: `if (fc && fc.features && fc.features.length) { clearLayers();
addData(fc); }` — otherwise the layer keeps its previous data. `onMoveEnd`:
`if (fc) { clearLayers(); addData(fc); }` — applied even when `fc.features` is
empty. -/
def applyResult (site : CallSite) (ret : Option FeatureCollection)
    (displayed : List Feature) : List Feature :=
  match site with
  | .overlayAdd =>
      match ret with
      | some fc => if fc.features.isEmpty then displayed else fc.features
      | none => displayed
  | .moveEnd =>
      match ret with
      | some fc => fc.features
      | none => displayed

def stepStream (st : StreamState) : StreamEv → StreamState
  | .start fid site =>
      { st with
        aborted := (match st.currentFid with
          | some c => c :: st.aborted
          | none => st.aborted)
        currentFid := some fid
        sites := (fid, site) :: st.sites }
  | .finish fid res =>
      match lookupSite st.sites fid with
      | none => st
      | some site =>
          { st with displayed := applyResult site (fetchReturn res) st.displayed }

def runStream (evs : List StreamEv) : StreamState :=
  evs.foldl stepStream initialStream

/-! ## The moveend debounce (`src/hooks/useWfsLayer.ts` lines 133-153)

Every `moveend` while the layer is on the map clears the pending timer and
schedules a new one 350 ms later; when a timer fires, its callback issues
exactly one `fetchForBbox` network fetch. Hence, for trigger times in
nondecreasing order, the timer set by a trigger fires unless the next trigger
arrives strictly before the fire time. -/

def debounceFetchCount : List ℕ → ℕ
  | [] => 0
  | [_] => 1
  | a :: b :: rest => (if b < a + 350 then 0 else 1) + debounceFetchCount (b :: rest)

/-! ## Auxiliary definitions used by the theorems -/

/-- Grouping a list two at a time, dropping an incomplete trailing element —
the clean specification the index loop of `parsePosList` is compared against. -/
def pairTwo : List JsNum → List (List JsNum)
  | a :: b :: rest => [a, b] :: pairTwo rest
  | _ => []

/-- Number of `<` characters in a string; used to show that the escaped popup
builders admit no markup injection (every `<` in their output comes from the
fixed HTML template, never from field data). -/
def ltCount (s : String) : ℕ := s.data.count '<'

/-! ## Concrete example inputs -/

def fcA : FeatureCollection := ⟨[⟨[("name", "A")], none⟩]⟩

def fcB : FeatureCollection := ⟨[⟨[("name", "B")], none⟩]⟩

def emptyFC : FeatureCollection := ⟨[]⟩

/-- A firefox-style DOMParser error document for non-well-formed input. -/
def errDoc : XmlDoc := ⟨.elem "parsererror" [.text "XML Parsing Error: syntax error"]⟩

/-- A well-formed document whose single feature has attributes but no
extractable geometry (its `the_geom` holds an unsupported `MultiSurface`). -/
def noGeomDoc : XmlDoc :=
  ⟨.elem "FeatureCollection" [
    .elem "featureMember" [
      .elem "pipeline" [
        .elem "name" [.text "no-geom"],
        .elem "the_geom" [.elem "MultiSurface" []]]]]⟩

/-- A well-formed document whose single feature carries a `LineString` with a
one-pair `posList`. -/
def onePointLineDoc : XmlDoc :=
  ⟨.elem "FeatureCollection" [
    .elem "featureMember" [
      .elem "building" [
        .elem "LineString" [.elem "posList" [.text "1 2"]]]]]⟩

/-- A feature element containing the spec's example polygon
(`exterior`/`LinearRing`/`posList` of "0 0 10 0 10 10 0 0"). -/
def polyFeatureEl : XmlNode :=
  .elem "feature" [
    .elem "Polygon" [
      .elem "exterior" [
        .elem "LinearRing" [.elem "posList" [.text "0 0 10 0 10 10 0 0"]]]]]

/-- A two-member document using the `gml:featureMember` wrapper convention. -/
def twoMemberDoc : XmlDoc :=
  ⟨.elem "wfs:FeatureCollection" [
    .elem "gml:featureMember" [.elem "a" [.elem "name" [.text "first"]]],
    .elem "gml:featureMember" [.elem "b" [.elem "name" [.text "second"]]]]⟩

/-- Trace: fetch 0 and fetch 1 issued on the moveend path; fetch 1 (the later,
generation-current one) applies first; fetch 0 then settles successfully even
though its controller was aborted at the start of fetch 1 (JS abort is
best-effort), and its stale payload is applied over fetch 1's data. -/
def c1trace : List StreamEv :=
  [.start 0 .moveEnd, .start 1 .moveEnd,
   .finish 1 (.success (some fcA)), .finish 0 (.success (some fcB))]

/-- The same trace up to (and including) the later fetch's application. -/
def c1prefixTrace : List StreamEv :=
  [.start 0 .moveEnd, .start 1 .moveEnd, .finish 1 (.success (some fcA))]

/-- Trace: a moveend fetch populates the layer; a second moveend fetch then
resolves with zero features. -/
def c4trace : List StreamEv :=
  [.start 0 .moveEnd, .finish 0 (.success (some fcA)),
   .start 1 .moveEnd, .finish 1 (.success (some emptyFC))]

/-- The same trace up to (and including) the first fetch's application. -/
def c4prefixTrace : List StreamEv :=
  [.start 0 .moveEnd, .finish 0 (.success (some fcA))]

/-! ## Helper lemmas -/

/-- The member loop never skips: the `if (!actualFeatureEl) continue` guard is
dead because `actualFeatureEl` defaults to the member element itself. -/
lemma featureOfMember_isSome (m : XmlNode) : (featureOfMember m).isSome := by
  unfold featureOfMember actualFeatureElOf jsOrNode
  cases m.elemChildren.find? (fun c =>
      !(["boundedby", "the_geom", "geometry", "envelope"].contains
          (lowerStr (localNameOf c.tagOf)))) <;>
    cases m.elemChildren.head? <;> simp

lemma filterMap_featureOfMember_len (l : List XmlNode) :
    (l.filterMap featureOfMember).length = l.length := by
  induction l with
  | nil => simp
  | cons x xs ih =>
    obtain ⟨y, hy⟩ := Option.isSome_iff_exists.mp (featureOfMember_isSome x)
    simp [List.filterMap_cons, hy, ih]

lemma filterMap_featureOfMember_get (l : List XmlNode) (i : ℕ) :
    (l.filterMap featureOfMember)[i]? = l[i]?.bind featureOfMember := by
  induction l generalizing i with
  | nil => simp
  | cons x xs ih =>
    obtain ⟨y, hy⟩ := Option.isSome_iff_exists.mp (featureOfMember_isSome x)
    cases i <;> simp [List.filterMap_cons, hy, ih]

/-- The index loop of `parsePosList` is two-at-a-time grouping. -/
lemma rangePairs_eq_pairTwo : ∀ nums : List JsNum,
    (List.range (nums.length / 2)).map
      (fun j => [nums.getD (2 * j) .nan, nums.getD (2 * j + 1) .nan]) = pairTwo nums
  | [] => by simp [pairTwo]
  | [a] => by simp [pairTwo]
  | a :: b :: rest => by
    have ih := rangePairs_eq_pairTwo rest
    have hlen : (a :: b :: rest).length / 2 = rest.length / 2 + 1 := by
      simp [List.length_cons]; omega
    rw [hlen, List.range_succ_eq_map, List.map_cons, List.map_map]
    have hmap : (List.range (rest.length / 2)).map
        ((fun j => [(a :: b :: rest).getD (2 * j) JsNum.nan,
                    (a :: b :: rest).getD (2 * j + 1) JsNum.nan]) ∘ Nat.succ)
        = (List.range (rest.length / 2)).map
            (fun j => [rest.getD (2 * j) JsNum.nan, rest.getD (2 * j + 1) JsNum.nan]) := by
      refine List.map_congr_left (fun j hj => ?_)
      simp only [Function.comp_apply]
      have h2 : 2 * Nat.succ j = Nat.succ (Nat.succ (2 * j)) := by omega
      have h3 : Nat.succ (Nat.succ (2 * j)) + 1 = Nat.succ (Nat.succ (2 * j + 1)) := by omega
      rw [h2, h3, List.getD_cons_succ, List.getD_cons_succ,
          List.getD_cons_succ, List.getD_cons_succ]
    rw [hmap, ih]
    simp [pairTwo]

lemma escapeChar_count_lt (c : Char) : (escapeChar c).count '<' = 0 := by
  unfold escapeChar
  split_ifs with h1 h2 h3
  · decide
  · decide
  · decide
  · simp [List.count_singleton, h2]

lemma escapeChar_count_gt (c : Char) : (escapeChar c).count '>' = 0 := by
  unfold escapeChar
  split_ifs with h1 h2 h3
  · decide
  · decide
  · decide
  · simp [List.count_singleton, h3]

lemma escapeHtml_count_lt (s : String) : ltCount (escapeHtml s) = 0 := by
  show (s.data.flatMap escapeChar).count '<' = 0
  induction s.data with
  | nil => simp
  | cons c cs ih => simp [List.flatMap_cons, List.count_append, ih, escapeChar_count_lt]

lemma escapeHtml_count_gt (s : String) : (escapeHtml s).data.count '>' = 0 := by
  show (s.data.flatMap escapeChar).count '>' = 0
  induction s.data with
  | nil => simp
  | cons c cs ih => simp [List.flatMap_cons, List.count_append, ih, escapeChar_count_gt]

lemma ltCount_append (a b : String) : ltCount (a ++ b) = ltCount a + ltCount b := by
  simp [ltCount, String.data_append, List.count_append]

lemma ltCount_joinSep : ∀ l : List String, (∀ x ∈ l, ltCount x = 2) →
    ltCount (joinSep "<br/>" l) = if l.isEmpty then 0 else 3 * l.length - 1
  | [] => by intro h; simp [joinSep, ltCount]
  | [x] => by
    intro h
    simp [joinSep, h x (by simp)]
  | x :: y :: rest => by
    intro h
    have ih := ltCount_joinSep (y :: rest) (fun z hz => h z (by simp at hz ⊢; tauto))
    show ltCount (x ++ "<br/>" ++ joinSep "<br/>" (y :: rest)) = _
    rw [ltCount_append, ltCount_append, h x (by simp), ih]
    simp [List.length_cons]
    have hbr : ltCount "<br/>" = 1 := by decide
    rw [hbr]
    omega

/-- One escaped `name: value` line contributes exactly the template's two `<`. -/
lemma ltCount_field_piece (u v : String) :
    ltCount ("<strong>" ++ escapeHtml u ++ ":</strong> " ++ escapeHtml v) = 2 := by
  rw [ltCount_append, ltCount_append, ltCount_append,
      escapeHtml_count_lt, escapeHtml_count_lt]
  decide

lemma pointBranch_shape (el : XmlNode) (g : Geometry) (h : pointBranch el = some g) :
    ∃ p, g = .point p := by
  unfold pointBranch at h
  split at h
  · exact absurd h (by simp)
  · dsimp only at h
    split at h
    · split at h
      · exact ⟨_, (Option.some.injEq _ _ ▸ h).symm⟩
      · exact absurd h (by simp)
    · exact absurd h (by simp)

lemma lineBranch_shape (el : XmlNode) (g : Geometry) (h : lineBranch el = some g) :
    ∃ cs, g = .lineString cs := by
  unfold lineBranch at h
  split at h
  · exact absurd h (by simp)
  · dsimp only at h
    split at h
    · split at h
      · split at h
        · exact ⟨_, (Option.some.injEq _ _ ▸ h).symm⟩
        · exact ⟨_, (Option.some.injEq _ _ ▸ h).symm⟩
      · exact ⟨_, (Option.some.injEq _ _ ▸ h).symm⟩
    · exact absurd h (by simp)

lemma polyBranch_shape (el : XmlNode) (g : Geometry) (h : polyBranch el = some g) :
    ∃ ring, g = .polygon [ring] ∧ ring ≠ [] := by
  unfold polyBranch at h
  split at h
  · exact absurd h (by simp)
  · dsimp only at h
    split at h
    · exact absurd h (by simp)
    · refine ⟨_, (Option.some.injEq _ _ ▸ h).symm, ?_⟩
      rename_i hne
      simpa [List.isEmpty_iff] using hne

lemma bareBranch_shape (el : XmlNode) (g : Geometry)
    (h : barePosListBranch el = some g) :
    (∃ p, g = .point p) ∨ ∃ cs, g = .lineString cs := by
  unfold barePosListBranch at h
  split at h
  · exact absurd h (by simp)
  · split at h
    · dsimp only at h
      split at h
      · exact Or.inl ⟨_, (Option.some.injEq _ _ ▸ h).symm⟩
      · exact Or.inr ⟨_, (Option.some.injEq _ _ ▸ h).symm⟩
    · exact absurd h (by simp)

/-- A `finish` whose `fetchForBbox` return value is null leaves the layer
untouched at both call sites. -/
lemma finish_null_displayed (st : StreamState) (fid : ℕ) (res : FetchEnd)
    (h : fetchReturn res = none) :
    (stepStream st (.finish fid res)).displayed = st.displayed := by
  simp only [stepStream]
  cases hs : lookupSite st.sites fid with
  | none => rfl
  | some site => cases site <;> simp [applyResult, h, hs]

/-! ## Claim theorems -/

/-- C1 (counterexample): with fetches 0 and 1 issued on the moveend path and
fetch 1 applying `fcA` first, the earlier fetch 0 — whose controller was
aborted (`0 ∈ aborted`) but which nonetheless settled successfully, i.e.
transport cancellation was ineffective — overwrites the layer with its stale
`fcB` payload. The claim demands the displayed layer be unchanged by the late
arrival; there is no generation counter in `useWfsLayer.ts` to enforce that. -/
theorem C1_counterexample :
    (runStream c1prefixTrace).displayed = fcA.features ∧
    0 ∈ (runStream c1trace).aborted ∧
    (runStream c1trace).displayed = fcB.features ∧
    fcB.features ≠ fcA.features := by decide

/-- C1 (amended): a late-completing earlier fetch leaves the displayed layer
unchanged only when `fetchForBbox` returns null for it (effective AbortError,
HTTP error, network failure, or empty body); without a generation check this
is the sole staleness protection. -/
theorem C1_amended_null_result_leaves_layer (st : StreamState) (fid : ℕ)
    (res : FetchEnd) (h : fetchReturn res = none) :
    (stepStream st (.finish fid res)).displayed = st.displayed :=
  finish_null_displayed st fid res h

/-- C1 witness: the amended theorem applied to an effectively-aborted fetch
settling in the initial state. -/
theorem C1_witness :
    fetchReturn FetchEnd.abortError = none ∧
    (stepStream initialStream (.finish 0 .abortError)).displayed
      = initialStream.displayed :=
  ⟨rfl, C1_amended_null_result_leaves_layer initialStream 0 .abortError rfl⟩

/-- C2 (counterexample): the popup bound to each feature of the hook's WFS
layer (`useWfsLayer.ts` `onEachFeature`) interpolates the attribute value raw:
a value containing `<img src=x>` appears verbatim in the popup HTML, not
escaped — contradicting the claim that every popup escapes every field value. -/
theorem C2_counterexample :
    hookFeaturePopupHtml [("name", "<img src=x>")] =
      "<div><strong>name</strong>: <img src=x></div>" ∧
    hookFeaturePopupHtml [("name", "<img src=x>")] ≠
      "<div><strong>name</strong>: &lt;img src=x&gt;</div>" := by decide

/-- C2 (amended): the click-resolution popup, the click-fallback popup and the
Map-owned WFS layer popup escape every field name and value — `escapeHtml`
output contains no `<` or `>` at all, and consequently the number of `<`
characters in those popups depends only on the number of fields, never on
field content (no markup injection). The hook's `onEachFeature` popup
(`hookFeaturePopupHtml`) is excluded: it does not escape. -/
theorem C2_amended_escaped_builders :
    (∀ s, (escapeHtml s).data.count '<' = 0 ∧ (escapeHtml s).data.count '>' = 0) ∧
    (∀ fields : List ZWSField, ltCount (clickFieldsPopupHtml fields) =
      if fields.length = 0 then 4 else 3 * fields.length + 1) ∧
    (∀ props : List (String × String), ltCount (fallbackPropsPopupHtml props) =
      if props.isEmpty then 2 else 3 * props.length + 1) ∧
    (∀ props : List (String × String), ltCount (mapFeaturePopupHtml props) =
      if props.isEmpty then 2 else 3 * props.length + 1) := by
  refine ⟨fun s => ⟨escapeHtml_count_lt s, escapeHtml_count_gt s⟩, ?_, ?_, ?_⟩
  · intro fields
    unfold clickFieldsPopupHtml
    split_ifs with h
    · decide
    · rw [ltCount_append, ltCount_append]
      rw [ltCount_joinSep _ (fun x hx => by
        obtain ⟨f, _, hf⟩ := List.mem_map.mp hx
        rw [← hf]; exact ltCount_field_piece f.userName f.value)]
      have h1 : ltCount "<div>" = 1 := by decide
      have h2 : ltCount "</div>" = 1 := by decide
      rw [h1, h2]
      simp [List.isEmpty_iff, List.length_map]
      split_ifs with he
      · exact absurd (by simp [he]) h
      · have : fields.length ≠ 0 := h
        omega
  · intro props
    unfold fallbackPropsPopupHtml
    rw [ltCount_append, ltCount_append]
    rw [ltCount_joinSep _ (fun x hx => by
      obtain ⟨p, _, hp⟩ := List.mem_map.mp hx
      rw [← hp]; exact ltCount_field_piece p.1 p.2)]
    have h1 : ltCount "<div>" = 1 := by decide
    have h2 : ltCount "</div>" = 1 := by decide
    rw [h1, h2]
    simp [List.isEmpty_iff, List.length_map]
    split_ifs with he
    · simp [he]
    · have : props.length ≠ 0 := fun hl => he (List.length_eq_zero.mp hl)
      omega
  · intro props
    unfold mapFeaturePopupHtml
    rw [ltCount_append, ltCount_append]
    rw [ltCount_joinSep _ (fun x hx => by
      obtain ⟨p, _, hp⟩ := List.mem_map.mp hx
      rw [← hp]; exact ltCount_field_piece p.1 p.2)]
    have h1 : ltCount "<div>" = 1 := by decide
    have h2 : ltCount "</div>" = 1 := by decide
    rw [h1, h2]
    simp [List.isEmpty_iff, List.length_map]
    split_ifs with he
    · simp [he]
    · have : props.length ≠ 0 := fun hl => he (List.length_eq_zero.mp hl)
      omega

/-- C3 (counterexample): for non-well-formed input (`DOMParser` hands back its
error document), `parseWfsXmlToGeoJson` does not fail — the source has no
throw path and never checks for `parsererror` — it returns a (here empty)
FeatureCollection, contradicting "fails (ParseError) exactly when the input is
not well-formed XML". -/
theorem C3_counterexample :
    parseWfsXmlToGeoJson "<not-xml" (.malformed errDoc) = some ⟨[]⟩ := by decide

/-- C3 (amended): the parser never raises at all: it returns null exactly for
the empty input string and otherwise always returns a FeatureCollection, even
for non-well-formed XML (the DOM error document is processed like any other
document); a feature with absent/unsupported geometry is still emitted, with
`geometry = none`. -/
theorem C3_amended_parser_never_fails :
    (∀ (s : String) (dom : DomParseResult),
        parseWfsXmlToGeoJson s dom = none ↔ s = "") ∧
    parseWfsXmlToGeoJson "<FeatureCollection>f</FeatureCollection>"
        (.wellFormed noGeomDoc)
      = some ⟨[⟨[("name", "no-geom")], none⟩]⟩ := by
  constructor
  · intro s dom
    constructor
    · intro h
      by_contra hs
      simp [parseWfsXmlToGeoJson, hs] at h
    · intro h
      simp [parseWfsXmlToGeoJson, h]
  · decide

/-- C4 (counterexample): a moveend refresh that resolves successfully with
zero features does not leave the displayed layer unchanged — the handler's
`if (fc)` test is satisfied by an empty FeatureCollection, so the previously
displayed `fcA` data is cleared. -/
theorem C4_counterexample :
    (runStream c4prefixTrace).displayed = fcA.features ∧
    (runStream c4trace).displayed = [] ∧
    fcA.features ≠ [] := by decide

/-- C4 (amended): a null result (stale-and-cancelled, HTTP or network failure)
leaves the layer unchanged at either call site; on the enable path
(`onOverlayAdd`) a successful result with zero features also leaves it
unchanged; but on a moveend refresh a successful result replaces the displayed
data unconditionally — with zero features the layer is emptied. -/
theorem C4_amended_refresh_application :
    (∀ st fid res, fetchReturn res = none →
      (stepStream st (.finish fid res)).displayed = st.displayed) ∧
    (∀ st fid (fc : FeatureCollection),
      lookupSite st.sites fid = some .overlayAdd → fc.features = [] →
      (stepStream st (.finish fid (.success (some fc)))).displayed = st.displayed) ∧
    (∀ st fid (fc : FeatureCollection),
      lookupSite st.sites fid = some .moveEnd →
      (stepStream st (.finish fid (.success (some fc)))).displayed = fc.features) := by
  refine ⟨fun st fid res h => finish_null_displayed st fid res h, ?_, ?_⟩
  · intro st fid fc hsite hempty
    simp only [stepStream]
    rw [hsite]
    simp [applyResult, fetchReturn, hempty]
  · intro st fid fc hsite
    simp only [stepStream]
    rw [hsite]
    simp [applyResult, fetchReturn]

/-- C4 witness: the amended theorem applied at concrete states — an aborted
fetch, an overlay-add fetch with zero features (both preserving `fcA`), and a
moveend fetch with zero features (which empties the layer). -/
theorem C4_witness :
    fetchReturn FetchEnd.abortError = none ∧
    (stepStream { currentFid := some 0, aborted := [], sites := [(0, .overlayAdd)],
                  displayed := fcA.features } (.finish 0 .abortError)).displayed
      = fcA.features ∧
    lookupSite [(0, CallSite.overlayAdd)] 0 = some .overlayAdd ∧
    emptyFC.features = [] ∧
    (stepStream { currentFid := some 0, aborted := [], sites := [(0, .overlayAdd)],
                  displayed := fcA.features } (.finish 0 (.success (some emptyFC)))).displayed
      = fcA.features ∧
    lookupSite [(1, CallSite.moveEnd)] 1 = some .moveEnd ∧
    (stepStream { currentFid := some 1, aborted := [], sites := [(1, .moveEnd)],
                  displayed := fcA.features } (.finish 1 (.success (some emptyFC)))).displayed
      = emptyFC.features :=
  ⟨rfl,
   C4_amended_refresh_application.1 _ 0 _ rfl,
   by decide,
   rfl,
   C4_amended_refresh_application.2.1 _ 0 emptyFC (by decide) rfl,
   by decide,
   C4_amended_refresh_application.2.2 _ 1 emptyFC (by decide)⟩

/-- C5: for every document, the parser emits exactly one feature per located
member node, in document order — the i-th feature is exactly the feature built
from the i-th member (and the `continue` guard never drops one). -/
theorem C5_member_count_and_order (s : String) (d : XmlDoc) (hs : s ≠ "") :
    ∃ fc, parseWfsXmlToGeoJson s (.wellFormed d) = some fc ∧
      fc.features.length = (wfsMembers d).length ∧
      ∀ i : ℕ, fc.features[i]? = ((wfsMembers d)[i]?).bind featureOfMember := by
  refine ⟨⟨parseDocFeatures d⟩, ?_, ?_, ?_⟩
  · simp [parseWfsXmlToGeoJson, hs, DomParseResult.doc]
  · exact filterMap_featureOfMember_len _
  · intro i; exact filterMap_featureOfMember_get _ i

/-- C5 witness: the theorem applied to a concrete two-member
`gml:featureMember` document (which indeed locates two members). -/
theorem C5_witness :
    ("<wfs:FeatureCollection>two</wfs:FeatureCollection>" : String) ≠ "" ∧
    (wfsMembers twoMemberDoc).length = 2 ∧
    (∃ fc, parseWfsXmlToGeoJson "<wfs:FeatureCollection>two</wfs:FeatureCollection>"
        (.wellFormed twoMemberDoc) = some fc ∧
      fc.features.length = (wfsMembers twoMemberDoc).length ∧
      ∀ i : ℕ, fc.features[i]? = ((wfsMembers twoMemberDoc)[i]?).bind featureOfMember) :=
  ⟨by decide, by decide,
   C5_member_count_and_order "<wfs:FeatureCollection>two</wfs:FeatureCollection>"
     twoMemberDoc (by decide)⟩

/-- C6: three moveend triggers each arriving within 350 ms of the previous one
produce exactly one debounced fetch, and a fourth trigger 400 ms after the
third produces exactly one more. -/
theorem C6_debounce_collapses_bursts (t1 t2 t3 : ℕ)
    (h12 : t2 < t1 + 350) (h23 : t3 < t2 + 350) :
    debounceFetchCount [t1, t2, t3] = 1 ∧
    debounceFetchCount [t1, t2, t3, t3 + 400] = 2 := by
  constructor <;> simp only [debounceFetchCount] <;> split_ifs <;> omega

/-- C6 witness: the theorem applied at trigger times 0, 100, 200 (and 600). -/
theorem C6_witness :
    (100 < 0 + 350 ∧ 200 < 100 + 350) ∧
    debounceFetchCount [0, 100, 200] = 1 ∧
    debounceFetchCount [0, 100, 200, 200 + 400] = 2 :=
  ⟨⟨by decide, by decide⟩,
   C6_debounce_collapses_bursts 0 100 200 (by decide) (by decide)⟩

/-- C7: when the point query resolves with a non-empty field list,
`handleMapClick` never issues the fallback bbox fetch; it binds the popup
built from those fields to the click marker and shows no other popup. -/
theorem C7_no_fallback_on_nonempty_fields (fields : List ZWSField)
    (wfs : Option FeatureCollection) (h : fields ≠ []) :
    (handleMapClick (.resolvedFields fields) wfs).fallbackIssued = false ∧
    (handleMapClick (.resolvedFields fields) wfs).markerPopup
      = some (clickFieldsPopupHtml fields) ∧
    (handleMapClick (.resolvedFields fields) wfs).plainPopup = none := by
  simp [handleMapClick]

/-- C7 witness: the theorem applied to a concrete one-field result. -/
theorem C7_witness :
    ([⟨"owner", "city"⟩] : List ZWSField) ≠ [] ∧
    ((handleMapClick (.resolvedFields [⟨"owner", "city"⟩]) none).fallbackIssued = false ∧
     (handleMapClick (.resolvedFields [⟨"owner", "city"⟩]) none).markerPopup
       = some (clickFieldsPopupHtml [⟨"owner", "city"⟩]) ∧
     (handleMapClick (.resolvedFields [⟨"owner", "city"⟩]) none).plainPopup = none) :=
  ⟨by decide, C7_no_fallback_on_nonempty_fields [⟨"owner", "city"⟩] none (by decide)⟩

/-- C8 (counterexample): a `LineString` whose `posList` holds a single pair is
emitted with one coordinate point — fewer than 2 — not discarded: the
LineString path of `parseGeometryFromElement` performs no minimum-length
check. -/
theorem C8_counterexample :
    parseWfsXmlToGeoJson "<FeatureCollection>one</FeatureCollection>"
        (.wellFormed onePointLineDoc)
      = some ⟨[⟨[], some (.lineString [[.val 1, .val 2]])⟩]⟩ ∧
    ([[JsNum.val 1, JsNum.val 2]] : List (List JsNum)).length < 2 := by decide

/-- C8 (amended): the only arity guarantee the parser gives is for polygons —
an emitted Polygon always has exactly one (exterior) ring and that ring is
non-empty; LineStrings are emitted with however many pairs were parsed,
including fewer than two. -/
theorem C8_amended_geometry_arity :
    (∀ el rings, parseGeometryFromElement el = some (.polygon rings) →
      ∃ ring, rings = [ring] ∧ ring ≠ []) ∧
    parseGeometryFromElement (some (XmlNode.elem "building"
        [.elem "LineString" [.elem "posList" [.text "1 2"]]]))
      = some (.lineString [[.val 1, .val 2]]) := by
  constructor
  · intro el rings h
    cases el with
    | none => simp [parseGeometryFromElement] at h
    | some e =>
      unfold parseGeometryFromElement at h
      dsimp only at h
      split at h
      · rename_i g' hg'
        obtain ⟨p, hp⟩ := pointBranch_shape e g' hg'
        rw [hp] at h
        simp at h
      · split at h
        · rename_i g' hg'
          obtain ⟨cs, hcs⟩ := lineBranch_shape e g' hg'
          rw [hcs] at h
          simp at h
        · split at h
          · rename_i g' hg'
            obtain ⟨ring, hr, hne⟩ := polyBranch_shape e g' hg'
            have hg : g' = Geometry.polygon rings := by injection h
            rw [hg] at hr
            have hr' : rings = [ring] := by injection hr
            exact ⟨ring, hr', hne⟩
          · rcases bareBranch_shape e _ h with ⟨p, hp⟩ | ⟨cs, hcs⟩
            · exact absurd hp (by simp)
            · exact absurd hcs (by simp)
  · decide

/-- C8 witness: the amended theorem's polygon clause applied to the spec's
example polygon ("0 0 10 0 10 10 0 0"), whose single ring is non-empty. -/
theorem C8_witness :
    parseGeometryFromElement (some polyFeatureEl) =
      some (.polygon [[[.val 0, .val 0], [.val 10, .val 0],
                       [.val 10, .val 10], [.val 0, .val 0]]]) ∧
    ∃ ring, ([[[JsNum.val 0, JsNum.val 0], [JsNum.val 10, JsNum.val 0],
               [JsNum.val 10, JsNum.val 10], [JsNum.val 0, JsNum.val 0]]]
        : List (List (List JsNum))) = [ring] ∧ ring ≠ [] :=
  ⟨by decide, C8_amended_geometry_arity.1 (some polyFeatureEl) _ (by decide)⟩

/-- C9 (counterexample): the token `Infinity` converts to a number that is not
finite yet passes the `!isNaN` filter, so it is kept: `"Infinity 2 3 4"` pairs
to `[[∞, 2], [3, 4]]`, whereas dropping every non-finite token before pairing
(as the claim states) would give `[[2, 3]]`. -/
theorem C9_counterexample :
    parsePosList "Infinity 2 3 4" = [[.inf, .val 2], [.val 3, .val 4]] ∧
    ([[JsNum.inf, JsNum.val 2], [JsNum.val 3, JsNum.val 4]] : List (List JsNum))
      ≠ [[JsNum.val 2, JsNum.val 3]] := by decide

/-- C9 (amended): `parsePosList` drops exactly the tokens converting to NaN
(±Infinity tokens are kept), then groups the surviving numbers pairwise in
order, dropping an odd trailing number: the source's index loop is equal to
two-at-a-time grouping of the NaN-filtered conversion of the token list, and
the concrete cases behave accordingly ("x" converts to NaN and is dropped
before pairing). -/
theorem C9_amended_poslist_pairing :
    (∀ text, parsePosList text =
      pairTwo (((jsTrimSplitWs text).map jsNumber).filter (fun n => !n.isNaN))) ∧
    parsePosList "1 2 3 4" = [[.val 1, .val 2], [.val 3, .val 4]] ∧
    parsePosList "1 2 3" = [[.val 1, .val 2]] ∧
    parsePosList "x 2 3 4" = [[.val 2, .val 3]] := by
  refine ⟨fun text => rangePairs_eq_pairTwo _, by decide, by decide, by decide⟩

/-- C10: the empty input string short-circuits (`if (!xmlText) return null`)
before the DOM is ever consulted: the parser returns null — not an empty
FeatureCollection and not an error — whatever the DOM layer would have said. -/
theorem C10_empty_input_returns_null (dom : DomParseResult) :
    parseWfsXmlToGeoJson "" dom = none := by
  simp [parseWfsXmlToGeoJson]
